import Mathlib

/-!
# Verification of `jupyter_data_languages` against its specification

This file shallowly embeds the code of the two notebooks
`Gaussian_process_regression_pymc.ipynb` and
`mcmc_fit_with_outliers_pymc.ipynb` and settles the claims of the
specification against it.

Numeric conventions: python floats are modelled as exact numbers — `ℚ`
where the code is pure rational arithmetic (the `CubicSpline` kernel,
`un_center`), `ℝ` where logarithms, square roots and Gaussian densities
appear (the pymc3 models).  Matrices built by `numpy`/`theano`
broadcasting are modelled as lists (a one-column matrix is a `List ℚ`, a
2-d array a `List (List ℚ)`).
-/

namespace CubicSplineKernel

/-- The constructor arguments of the `CubicSpline(pm.gp.cov.Covariance)`
class of `Gaussian_process_regression_pymc.ipynb`: `self.x_min` and
`self.x_max` (the `dim` argument is ignored by the class body, which
always passes `1` to the base constructor). -/
structure Params where
  x_min : ℚ
  x_max : ℚ
deriving DecidableEq

/-- `CubicSpline.norm`: `d = self.x_max - self.x_min; return (X - self.x_min) / d`,
applied entrywise to the input column. -/
def norm (p : Params) (x : ℚ) : ℚ :=
  (x - p.x_min) / (p.x_max - p.x_min)

/-- `CubicSpline.diag`: after `_slice` (identity for a one-dimensional
kernel with no active-dims restriction) and `norm`, flattens the column
and returns `1 + (Xt**3) / 3` entrywise. -/
def diag (p : Params) (X : List ℚ) : List ℚ :=
  (X.map (norm p)).map (fun xt => 1 + xt ^ 3 / 3)

/-- The entrywise kernel expression of `CubicSpline.full` on a pair of
already-normalized inputs: with `d = tt.abs_(X - tt.transpose(Xs))` and
`v = tt.minimum(X, tt.transpose(Xs))`, the code returns
`k = 1 + (0.5 * d * v**2) + ((v**3) / 3)`. -/
def kentry (x1 x2 : ℚ) : ℚ :=
  1 + (1 / 2 * |x1 - x2| * min x1 x2 ^ 2) + (min x1 x2 ^ 3 / 3)

/-- `CubicSpline.full`: after `_slice`, substitutes `Xs = X` when `Xs` is
`None`, normalizes both columns, and forms the matrix of `kentry` values
over all pairs (row index ranges over `X`, column index over `Xs`). -/
def full (p : Params) (X : List ℚ) (Xs : Option (List ℚ)) : List (List ℚ) :=
  (X.map (norm p)).map (fun x1 => ((Xs.getD X).map (norm p)).map (fun x2 => kentry x1 x2))

/-- The kernel value exactly as the specification states it for claim C1:
for a normalized pair `(x1, x2)`, the value
`1 + |x1 - x2| * min(x1, x2)^2 / 2 + min(x1, x2)^3 / 3`. -/
def specEntry (x1 x2 : ℚ) : ℚ :=
  1 + |x1 - x2| * min x1 x2 ^ 2 / 2 + min x1 x2 ^ 3 / 3

theorem kentry_eq_specEntry (x1 x2 : ℚ) : kentry x1 x2 = specEntry x1 x2 := by
  unfold kentry specEntry
  ring

theorem kentry_comm (a b : ℚ) : kentry a b = kentry b a := by
  unfold kentry
  rw [abs_sub_comm, min_comm]

theorem kentry_self (a : ℚ) : kentry a a = 1 + a ^ 3 / 3 := by
  unfold kentry
  simp

/-- `getD` of a mapped list at an index inside the list. -/
theorem getD_map {α β : Type} (f : α → β) (l : List α) (i : ℕ)
    (h : i < l.length) (d : β) : (l.map f).getD i d = f l[i] := by
  rw [List.getD_eq_getElem?_getD, List.getElem?_map,
    List.getElem?_eq_getElem h]
  rfl

/-- The `(i, j)` entry of the matrix `full(X, None)`. -/
theorem full_none_entry (p : Params) (X : List ℚ) (i j : ℕ)
    (hi : i < X.length) (hj : j < X.length) :
    ((full p X none).getD i []).getD j 0 =
      kentry (norm p X[i]) (norm p X[j]) := by
  unfold full
  rw [getD_map _ _ i (by simpa using hi),
    getD_map _ _ j (by simpa using hj), List.getElem_map, List.getElem_map]
  simp

/-- The `i`-th entry of `diag(X)`. -/
theorem diag_entry (p : Params) (X : List ℚ) (i : ℕ) (hi : i < X.length) :
    (diag p X).getD i 0 = 1 + norm p X[i] ^ 3 / 3 := by
  unfold diag
  rw [getD_map _ _ i (by simpa using hi), List.getElem_map]

end CubicSplineKernel

/-- **C1.** For every input matrix `X` (and second argument `Xs`) with
entries in `[x_min, x_max]` and `x_min < x_max`, `CubicSpline.full`
first affinely normalizes every entry to `x' = (x - x_min) / (x_max - x_min)`
and then returns, element-wise for each normalized pair `(x1, x2)`, the
value `1 + |x1 - x2| * min(x1, x2)^2 / 2 + min(x1, x2)^3 / 3`. -/
theorem C1_cubic_spline_full_formula (p : CubicSplineKernel.Params)
    (X Xs : List ℚ)
    (hlt : p.x_min < p.x_max)
    (hX : ∀ x ∈ X, p.x_min ≤ x ∧ x ≤ p.x_max)
    (hXs : ∀ x ∈ Xs, p.x_min ≤ x ∧ x ≤ p.x_max) :
    CubicSplineKernel.full p X (some Xs) =
      X.map (fun a => Xs.map (fun b =>
        CubicSplineKernel.specEntry
          (CubicSplineKernel.norm p a) (CubicSplineKernel.norm p b))) := by
  unfold CubicSplineKernel.full
  simp only [Option.getD_some, List.map_map]
  refine List.map_congr_left (fun a _ => ?_)
  refine List.map_congr_left (fun b _ => ?_)
  exact CubicSplineKernel.kentry_eq_specEntry _ _

/-- Witness for C1 at concrete input. -/
theorem C1_cubic_spline_full_formula_witness :
    (0 : ℚ) < 10 ∧
      CubicSplineKernel.full ⟨0, 10⟩ [0, 5, 10] (some [0, 10]) =
        [0, 5, 10].map (fun a => [0, 10].map (fun b =>
          CubicSplineKernel.specEntry
            (CubicSplineKernel.norm ⟨0, 10⟩ a) (CubicSplineKernel.norm ⟨0, 10⟩ b))) :=
  ⟨by norm_num,
    C1_cubic_spline_full_formula ⟨0, 10⟩ [0, 5, 10] [0, 10]
      (by norm_num) (by decide) (by decide)⟩

/-- **C7.** The two overridden methods of `CubicSpline` are mutually
consistent: for every input matrix `X`, the matrix returned by
`full(X, None)` is symmetric (`k[i][j] = k[j][i]` for all `i, j`), and its
diagonal equals the vector returned by `diag(X)`, both being
`1 + x'^3 / 3` for each normalized entry `x'`. -/
theorem C7_cubic_spline_diag_full_consistent (p : CubicSplineKernel.Params)
    (X : List ℚ) (i j : ℕ) (hi : i < X.length) (hj : j < X.length) :
    ((CubicSplineKernel.full p X none).getD i []).getD j 0 =
      ((CubicSplineKernel.full p X none).getD j []).getD i 0 ∧
    ((CubicSplineKernel.full p X none).getD i []).getD i 0 =
      (CubicSplineKernel.diag p X).getD i 0 ∧
    (CubicSplineKernel.diag p X).getD i 0 =
      1 + CubicSplineKernel.norm p X[i] ^ 3 / 3 := by
  refine ⟨?_, ?_, CubicSplineKernel.diag_entry p X i hi⟩
  · rw [CubicSplineKernel.full_none_entry p X i j hi hj,
      CubicSplineKernel.full_none_entry p X j i hj hi]
    exact CubicSplineKernel.kentry_comm _ _
  · rw [CubicSplineKernel.full_none_entry p X i i hi hi,
      CubicSplineKernel.diag_entry p X i hi]
    exact CubicSplineKernel.kentry_self _

/-- Witness for C7 at concrete input. -/
theorem C7_cubic_spline_diag_full_consistent_witness :
    (0 < ([0, 5, 10] : List ℚ).length ∧ 1 < ([0, 5, 10] : List ℚ).length) ∧
    (((CubicSplineKernel.full ⟨0, 10⟩ [0, 5, 10] none).getD 0 []).getD 1 0 =
      ((CubicSplineKernel.full ⟨0, 10⟩ [0, 5, 10] none).getD 1 []).getD 0 0 ∧
    ((CubicSplineKernel.full ⟨0, 10⟩ [0, 5, 10] none).getD 0 []).getD 0 0 =
      (CubicSplineKernel.diag ⟨0, 10⟩ [0, 5, 10]).getD 0 0 ∧
    (CubicSplineKernel.diag ⟨0, 10⟩ [0, 5, 10]).getD 0 0 =
      1 + CubicSplineKernel.norm ⟨0, 10⟩ (([0, 5, 10] : List ℚ)[0]) ^ 3 / 3) :=
  ⟨⟨by decide, by decide⟩,
    C7_cubic_spline_diag_full_consistent ⟨0, 10⟩ [0, 5, 10] 0 1
      (by decide) (by decide)⟩

namespace LineFit

/-- `un_center` from `mcmc_fit_with_outliers_pymc.ipynb`:
```python
def un_center(b0_prime, b1_prime, x_mean, x_std, y_mean, y_std):
    b0 = (b0_prime * y_std) - (b1_prime * x_mean * y_std/x_std) + y_mean
    x = x_mean - (x_std / b1_prime) * ((y_mean / y_std) + b0_prime)
    b1 = -b0 / x
    return b0, b1
``` -/
def un_center (b0_prime b1_prime x_mean x_std y_mean y_std : ℚ) : ℚ × ℚ :=
  let b0 := (b0_prime * y_std) - (b1_prime * x_mean * y_std / x_std) + y_mean
  let x := x_mean - (x_std / b1_prime) * ((y_mean / y_std) + b0_prime)
  let b1 := -b0 / x
  (b0, b1)

theorem un_center_fst (b0p b1p xm xs ym ys : ℚ) :
    (un_center b0p b1p xm xs ym ys).1 =
      (b0p * ys) - (b1p * xm * ys / xs) + ym := rfl

theorem un_center_snd (b0p b1p xm xs ym ys : ℚ) :
    (un_center b0p b1p xm xs ym ys).2 =
      -((b0p * ys) - (b1p * xm * ys / xs) + ym) /
        (xm - (xs / b1p) * ((ym / ys) + b0p)) := rfl

end LineFit

/-- **C4.** For every `(b0_prime, b1_prime)` with `b1_prime ≠ 0`, every
`x_std ≠ 0`, `y_std ≠ 0`, and
`x_mean - (x_std / b1_prime) * ((y_mean / y_std) + b0_prime) ≠ 0`,
`un_center` inverts the centering transform at the level of lines: its
result `(b0, b1)` satisfies `b1 = b1_prime * y_std / x_std` and, for
every `x`, `b0 + b1 * x = y_mean + y_std * (b0_prime + b1_prime * (x - x_mean) / x_std)`,
so the centered-space line and the original-space line describe the same
set of points. -/
theorem C4_un_center_inverts_centering (b0p b1p xm xs ym ys : ℚ)
    (hb1 : b1p ≠ 0) (hxs : xs ≠ 0) (hys : ys ≠ 0)
    (hx0 : xm - (xs / b1p) * ((ym / ys) + b0p) ≠ 0) :
    (LineFit.un_center b0p b1p xm xs ym ys).2 = b1p * ys / xs ∧
    ∀ x : ℚ,
      (LineFit.un_center b0p b1p xm xs ym ys).1 +
        (LineFit.un_center b0p b1p xm xs ym ys).2 * x =
      ym + ys * (b0p + b1p * (x - xm) / xs) := by
  have h2 : (LineFit.un_center b0p b1p xm xs ym ys).2 = b1p * ys / xs := by
    rw [LineFit.un_center_snd, div_eq_iff hx0]
    field_simp
    ring
  refine ⟨h2, fun x => ?_⟩
  rw [h2, LineFit.un_center_fst]
  field_simp
  ring

/-- Witness for C4 at concrete input. -/
theorem C4_un_center_inverts_centering_witness :
    ((1 : ℚ) ≠ 0 ∧ (1 : ℚ) ≠ 0 ∧ (1 : ℚ) ≠ 0 ∧
      (0 : ℚ) - (1 / 1) * ((0 / 1) + 1) ≠ 0) ∧
    (LineFit.un_center 1 1 0 1 0 1).2 = 1 * 1 / 1 ∧
    (LineFit.un_center 1 1 0 1 0 1).1 +
        (LineFit.un_center 1 1 0 1 0 1).2 * 7 =
      0 + 1 * (1 + 1 * (7 - 0) / 1) :=
  ⟨⟨by norm_num, by norm_num, by norm_num, by norm_num⟩,
    (C4_un_center_inverts_centering 1 1 0 1 0 1 (by norm_num) (by norm_num)
      (by norm_num) (by norm_num)).1,
    (C4_un_center_inverts_centering 1 1 0 1 0 1 (by norm_num) (by norm_num)
      (by norm_num) (by norm_num)).2 7⟩

namespace SignoiseModel

/-- The log-density of a `pm.Normal` distribution with mean `mu` and
standard deviation `sigma` at value `y`, the standard Gaussian
log-density used by the sampling library for
`pm.Normal.dist(mu, sigma).logp(y)`:
`-((y - mu)/sigma)^2/2 - log sigma - log(2*pi)/2`. -/
noncomputable def normal_logp (mu sigma y : ℝ) : ℝ :=
  -(((y - mu) / sigma) ^ 2) / 2 - Real.log sigma - Real.log (2 * Real.pi) / 2

/-- `logL_in` of `mdl_signoise` in `mcmc_fit_with_outliers_pymc.ipynb`:
`pm.Normal.dist(mu=y_est, sigma=tsv_sy).logp(tsv_y)` with
`y_est = b0 + b1 * tsv_x`, per data point. -/
noncomputable def logL_in (b0 b1 x sy y : ℝ) : ℝ :=
  normal_logp (b0 + b1 * x) sy y

/-- `logL_out` of `mdl_signoise`:
`pm.Normal.dist(mu=Yb, sigma=pm.math.sqrt(Vb + tsv_sy**2)).logp(tsv_y)`,
per data point. -/
noncomputable def logL_out (Yb Vb sy y : ℝ) : ℝ :=
  normal_logp Yb (Real.sqrt (Vb + sy ^ 2)) y

/-- A row `(x, y, sy)` of the data table as used by the models (the
`sx` column is not used by `mdl_signoise` or `mixture`). -/
structure Point where
  x : ℝ
  y : ℝ
  sy : ℝ

/-- The log-probability added by
`pm.Potential('likelihood', ((1 - qi) * logL_in).sum() + (qi * logL_out).sum())`
in `mdl_signoise`; the 0/1-valued label vector `qi` is carried as a
`List ℕ` and paired with the data rows. -/
noncomputable def potential (b0 b1 Yb Vb : ℝ) (pts : List Point) (qs : List ℕ) : ℝ :=
  (List.zipWith (fun (p : Point) (q : ℕ) =>
    ((1 : ℝ) - (q : ℝ)) * logL_in b0 b1 p.x p.sy p.y) pts qs).sum +
  (List.zipWith (fun (p : Point) (q : ℕ) =>
    (q : ℝ) * logL_out Yb Vb p.sy p.y) pts qs).sum

/-- One factor of Hogg (2010) equation 13, exactly as displayed in the
markdown of `mcmc_fit_with_outliers_pymc.ipynb`:
`[1/sqrt(2 pi sy^2) * exp(-(y - m x - b)^2/(2 sy^2))]^(1-q) *
 [1/sqrt(2 pi (Vb + sy^2)) * exp(-(y - Yb)^2/(2 (Vb + sy^2)))]^q`
with slope `m = b1` and intercept `b = b0`. -/
noncomputable def hoggFactor (b0 b1 Yb Vb : ℝ) (p : Point) (q : ℕ) : ℝ :=
  (1 / Real.sqrt (2 * Real.pi * p.sy ^ 2) *
      Real.exp (-(p.y - b1 * p.x - b0) ^ 2 / (2 * p.sy ^ 2))) ^ (1 - q) *
  (1 / Real.sqrt (2 * Real.pi * (Vb + p.sy ^ 2)) *
      Real.exp (-(p.y - Yb) ^ 2 / (2 * (Vb + p.sy ^ 2)))) ^ q

/-- The Hogg equation-13 mixture likelihood: the product of the
per-point factors over the data set. -/
noncomputable def hoggLik (b0 b1 Yb Vb : ℝ) (pts : List Point) (qs : List ℕ) : ℝ :=
  (List.zipWith (fun p q => hoggFactor b0 b1 Yb Vb p q) pts qs).prod

/-- Logarithm of a Gaussian density written with the variance `v` under
the square root, as in Hogg equation 13. -/
theorem log_normal_pdf_var (mu : ℝ) {v : ℝ} (hv : 0 < v) (y : ℝ) :
    Real.log (1 / Real.sqrt (2 * Real.pi * v) *
        Real.exp (-(y - mu) ^ 2 / (2 * v))) =
      normal_logp mu (Real.sqrt v) y := by
  have h2πv : (0 : ℝ) < 2 * Real.pi * v := by positivity
  rw [Real.log_mul (by positivity) (Real.exp_ne_zero _), Real.log_exp,
    one_div, Real.log_inv, Real.log_sqrt h2πv.le,
    Real.log_mul (by positivity) hv.ne']
  unfold normal_logp
  rw [div_pow, Real.sq_sqrt hv.le, Real.log_sqrt hv.le]
  ring

/-- Each factor of the Hogg likelihood is positive. -/
theorem hoggFactor_pos (b0 b1 Yb Vb : ℝ) (p : Point) (q : ℕ)
    (hsy : 0 < p.sy) (hVb : 0 ≤ Vb) :
    0 < hoggFactor b0 b1 Yb Vb p q := by
  unfold hoggFactor
  have h1 : (0 : ℝ) < Real.sqrt (2 * Real.pi * p.sy ^ 2) :=
    Real.sqrt_pos.2 (by positivity)
  have h2 : (0 : ℝ) < Real.sqrt (2 * Real.pi * (Vb + p.sy ^ 2)) :=
    Real.sqrt_pos.2 (by positivity)
  positivity

/-- The Hogg likelihood is positive. -/
theorem hoggLik_pos (b0 b1 Yb Vb : ℝ) (hVb : 0 ≤ Vb) :
    ∀ (pts : List Point) (qs : List ℕ), (∀ p ∈ pts, 0 < p.sy) →
      0 < hoggLik b0 b1 Yb Vb pts qs := by
  intro pts
  induction pts with
  | nil => intro qs _; simp [hoggLik]
  | cons p pts ih =>
    intro qs hsy
    cases qs with
    | nil => simp [hoggLik]
    | cons q qs =>
      have hp : 0 < p.sy := hsy p (by simp)
      have hrest : 0 < hoggLik b0 b1 Yb Vb pts qs :=
        ih qs (fun r hr => hsy r (by simp [hr]))
      unfold hoggLik at hrest ⊢
      rw [List.zipWith_cons_cons, List.prod_cons]
      exact mul_pos (hoggFactor_pos b0 b1 Yb Vb p q hp hVb) hrest

/-- The potential's per-point contribution is the log of the
corresponding Hogg factor. -/
theorem log_hoggFactor (b0 b1 Yb Vb : ℝ) (p : Point) (q : ℕ)
    (hsy : 0 < p.sy) (hVb : 0 ≤ Vb) (hq : q ≤ 1) :
    Real.log (hoggFactor b0 b1 Yb Vb p q) =
      ((1 : ℝ) - q) * logL_in b0 b1 p.x p.sy p.y +
        (q : ℝ) * logL_out Yb Vb p.sy p.y := by
  have hin : (0 : ℝ) < 1 / Real.sqrt (2 * Real.pi * p.sy ^ 2) *
      Real.exp (-(p.y - b1 * p.x - b0) ^ 2 / (2 * p.sy ^ 2)) := by
    have h1 : (0 : ℝ) < Real.sqrt (2 * Real.pi * p.sy ^ 2) :=
      Real.sqrt_pos.2 (by positivity)
    positivity
  have hout : (0 : ℝ) < 1 / Real.sqrt (2 * Real.pi * (Vb + p.sy ^ 2)) *
      Real.exp (-(p.y - Yb) ^ 2 / (2 * (Vb + p.sy ^ 2))) := by
    have h2 : (0 : ℝ) < Real.sqrt (2 * Real.pi * (Vb + p.sy ^ 2)) :=
      Real.sqrt_pos.2 (by positivity)
    positivity
  have hvin : (0 : ℝ) < p.sy ^ 2 := by positivity
  have hvout : (0 : ℝ) < Vb + p.sy ^ 2 := by positivity
  unfold hoggFactor
  rw [Real.log_mul (pow_ne_zero _ hin.ne') (pow_ne_zero _ hout.ne'),
    Real.log_pow, Real.log_pow, log_normal_pdf_var _ hvin,
    log_normal_pdf_var _ hvout, Real.sqrt_sq hsy.le]
  have hcast : ((1 - q : ℕ) : ℝ) = 1 - (q : ℝ) := by
    rw [Nat.cast_sub hq, Nat.cast_one]
  rw [hcast]
  unfold logL_in logL_out normal_logp
  ring_nf

end SignoiseModel

/-- **C2.** For every dataset `(x_i, y_i, sy_i)`, every parameter
assignment `(b0, b1, Yb, Vb)` and every label vector `q` with
`q_i ∈ {0,1}`, the log-probability added by the `pm.Potential` term in
`mdl_signoise`, namely
`Σ_i (1 - q_i) * logN(y_i; b0 + b1*x_i, sy_i) + q_i * logN(y_i; Yb, sqrt(Vb + sy_i^2))`,
equals the logarithm of the Hogg 2010 equation-13 mixture likelihood. -/
theorem C2_potential_eq_log_hogg (b0 b1 Yb Vb : ℝ)
    (pts : List SignoiseModel.Point) (qs : List ℕ)
    (hsy : ∀ p ∈ pts, 0 < p.sy) (hVb : 0 ≤ Vb)
    (hq : ∀ q ∈ qs, q ≤ 1) :
    SignoiseModel.potential b0 b1 Yb Vb pts qs =
      Real.log (SignoiseModel.hoggLik b0 b1 Yb Vb pts qs) := by
  induction pts generalizing qs with
  | nil => simp [SignoiseModel.potential, SignoiseModel.hoggLik]
  | cons p pts ih =>
    cases qs with
    | nil => simp [SignoiseModel.potential, SignoiseModel.hoggLik]
    | cons q qs =>
      have hp : 0 < p.sy := hsy p (by simp)
      have hsy' : ∀ r ∈ pts, 0 < r.sy := fun r hr => hsy r (by simp [hr])
      have hq1 : q ≤ 1 := hq q (by simp)
      have hq' : ∀ r ∈ qs, r ≤ 1 := fun r hr => hq r (by simp [hr])
      have hfac : (0 : ℝ) < SignoiseModel.hoggFactor b0 b1 Yb Vb p q :=
        SignoiseModel.hoggFactor_pos b0 b1 Yb Vb p q hp hVb
      have hrest : (0 : ℝ) < SignoiseModel.hoggLik b0 b1 Yb Vb pts qs :=
        SignoiseModel.hoggLik_pos b0 b1 Yb Vb hVb pts qs hsy'
      have hsplit : SignoiseModel.hoggLik b0 b1 Yb Vb (p :: pts) (q :: qs) =
          SignoiseModel.hoggFactor b0 b1 Yb Vb p q *
            SignoiseModel.hoggLik b0 b1 Yb Vb pts qs := by
        unfold SignoiseModel.hoggLik
        rw [List.zipWith_cons_cons, List.prod_cons]
      have hpot : SignoiseModel.potential b0 b1 Yb Vb (p :: pts) (q :: qs) =
          (((1 : ℝ) - q) * SignoiseModel.logL_in b0 b1 p.x p.sy p.y +
            (q : ℝ) * SignoiseModel.logL_out Yb Vb p.sy p.y) +
          SignoiseModel.potential b0 b1 Yb Vb pts qs := by
        unfold SignoiseModel.potential
        rw [List.zipWith_cons_cons, List.zipWith_cons_cons,
          List.sum_cons, List.sum_cons]
        ring
      rw [hpot, hsplit, Real.log_mul hfac.ne' hrest.ne',
        SignoiseModel.log_hoggFactor b0 b1 Yb Vb p q hp hVb hq1, ih qs hsy' hq']

/-- Witness for C2 at concrete input. -/
theorem C2_potential_eq_log_hogg_witness :
    (∀ p ∈ [SignoiseModel.Point.mk 0 0 1], 0 < p.sy) ∧ (0 : ℝ) ≤ 0 ∧
    (∀ q ∈ [0], q ≤ 1) ∧
    SignoiseModel.potential 0 0 0 0 [SignoiseModel.Point.mk 0 0 1] [0] =
      Real.log (SignoiseModel.hoggLik 0 0 0 0 [SignoiseModel.Point.mk 0 0 1] [0]) := by
  have h1 : ∀ p ∈ [SignoiseModel.Point.mk (0 : ℝ) 0 1], 0 < p.sy := by
    intro p hp
    simp only [List.mem_singleton] at hp
    subst hp
    norm_num
  have h3 : ∀ q ∈ [(0 : ℕ)], q ≤ 1 := by decide
  exact ⟨h1, le_refl 0, h3,
    C2_potential_eq_log_hogg 0 0 0 0 _ _ h1 (le_refl 0) h3⟩

namespace SignoiseModel

/-- The probability that the `pm.Bernoulli(p=Pb)` label `qi` of
`mdl_signoise` takes the value `q ∈ {0, 1}`:
`Pb^q * (1 - Pb)^(1 - q)` (the exponential of the library's Bernoulli
log-probability). -/
noncomputable def bernoulli_pmf (Pb : ℝ) (q : ℕ) : ℝ :=
  Pb ^ q * (1 - Pb) ^ (1 - q)

/-- The per-point joint likelihood of the observed `y` and a given label
value `q` under `mdl_signoise`: the Bernoulli weight of the label times
the exponential of the per-point contribution of the `pm.Potential`
term, `(1 - q) * logL_in + q * logL_out`. -/
noncomputable def signoise_joint (b0 b1 Yb Vb Pb : ℝ) (p : Point) (q : ℕ) : ℝ :=
  bernoulli_pmf Pb q *
    Real.exp (((1 : ℝ) - (q : ℝ)) * logL_in b0 b1 p.x p.sy p.y +
      (q : ℝ) * logL_out Yb Vb p.sy p.y)

/-- The per-point likelihood of the `mixture` model of
`mcmc_fit_with_outliers_pymc.ipynb`:
`pm.NormalMixture('likelihood', w, y_est, sd=sigma, observed=y_center)`
with component stacks taken from the source,
means `[b0 + b1*x, Yb]` and standard deviations
`[sy, sqrt(sy^2 + Vb)]`; its density at `y` is
`w0 * N(y; b0 + b1*x, sy) + w1 * N(y; Yb, sqrt(sy^2 + Vb))`. -/
noncomputable def mixture_point_lik (w0 w1 b0 b1 Yb Vb : ℝ) (p : Point) : ℝ :=
  w0 * Real.exp (normal_logp (b0 + b1 * p.x) p.sy p.y) +
  w1 * Real.exp (normal_logp Yb (Real.sqrt (p.sy ^ 2 + Vb)) p.y)

end SignoiseModel

/-- **C3.** For every data point `(x, y, sy)` and every parameter
assignment `(b0, b1, Yb, Vb, Pb)` with `0 ≤ Pb ≤ 1`, summing the joint
likelihood of the discrete-label model `mdl_signoise` over the Bernoulli
label `q ∈ {0, 1}` yields exactly the per-point likelihood of the
`NormalMixture` model `mixture` with weights `w = [1 - Pb, Pb]`,
component means `[b0 + b1*x, Yb]` and component standard deviations
`[sy, sqrt(sy^2 + Vb)]`: the marginalized discrete-label model and the
`NormalMixture` model define the same likelihood of the observed `y`. -/
theorem C3_marginalized_signoise_eq_mixture (b0 b1 Yb Vb Pb : ℝ)
    (p : SignoiseModel.Point) (hPb0 : 0 ≤ Pb) (hPb1 : Pb ≤ 1) :
    SignoiseModel.signoise_joint b0 b1 Yb Vb Pb p 0 +
      SignoiseModel.signoise_joint b0 b1 Yb Vb Pb p 1 =
    SignoiseModel.mixture_point_lik (1 - Pb) Pb b0 b1 Yb Vb p := by
  unfold SignoiseModel.signoise_joint SignoiseModel.bernoulli_pmf
    SignoiseModel.mixture_point_lik SignoiseModel.logL_in SignoiseModel.logL_out
  rw [add_comm Vb (p.sy ^ 2)]
  norm_num

/-- Witness for C3 at concrete input. -/
theorem C3_marginalized_signoise_eq_mixture_witness :
    ((0 : ℝ) ≤ 1 / 2 ∧ (1 / 2 : ℝ) ≤ 1) ∧
    SignoiseModel.signoise_joint 0 0 0 0 (1 / 2) (SignoiseModel.Point.mk 0 0 1) 0 +
      SignoiseModel.signoise_joint 0 0 0 0 (1 / 2) (SignoiseModel.Point.mk 0 0 1) 1 =
    SignoiseModel.mixture_point_lik (1 - 1 / 2) (1 / 2) 0 0 0 0
      (SignoiseModel.Point.mk 0 0 1) :=
  ⟨⟨by norm_num, by norm_num⟩,
    C3_marginalized_signoise_eq_mixture 0 0 0 0 (1 / 2)
      (SignoiseModel.Point.mk 0 0 1) (by norm_num) (by norm_num)⟩

namespace SignoiseModel

/-- The prior distributions appearing in `mdl_signoise` (arguments as in
the source; a `bernoulli` prior's parameter is another free random
variable of the model, referenced by name). -/
inductive PriorDist where
  | normal (mu sd : ℚ)
  | uniform (lower upper : ℚ)
  | invGamma (alpha beta : ℚ)
  | bernoulli (pName : String)
deriving DecidableEq

/-- A free random variable declared in a pymc3 model block: its name,
its prior, and its shape (`none` = scalar, `some n` = vector of
length `n`). -/
structure RVDecl where
  name : String
  dist : PriorDist
  shape : Option ℕ
deriving DecidableEq

/-- The free random variables of `mdl_signoise` in
`mcmc_fit_with_outliers_pymc.ipynb`, in declaration order, for a data
set of `n` points (`n = tsv_x.eval().shape[0]`):
```python
b0 = pm.Normal('intercept', mu=0, sd=100)
b1 = pm.Normal('slope', mu=0, sd=100)
Yb = pm.Normal(r'$Y_b$', mu=0, sd=10)
Vb = pm.InverseGamma(r'$V_b$', 2, 5)
Pb = pm.Uniform(r'$P_b$', lower=0.0, upper=1.0, testval=0.5)
qi = pm.Bernoulli(r'$q_i$', p=Pb, shape=tsv_x.eval().shape[0], ...)
``` -/
def mdl_signoise_rvs (n : ℕ) : List RVDecl :=
  [⟨"intercept", .normal 0 100, none⟩,
   ⟨"slope", .normal 0 100, none⟩,
   ⟨"$Y_b$", .normal 0 10, none⟩,
   ⟨"$V_b$", .invGamma 2 5, none⟩,
   ⟨"$P_b$", .uniform 0 1, none⟩,
   ⟨"$q_i$", .bernoulli "$P_b$", some n⟩]

end SignoiseModel

/-- **C8.** The probabilistic-programming variant of the Bayesian line
fit with outlier rejection uses a mixture-model and discrete-label
formulation: `mdl_signoise` attaches to each of the `n` data points
exactly one Bernoulli-distributed binary label (the single vector-valued
variable `$q_i$` of shape `n`, Bernoulli with the common outlier
probability `$P_b$`, itself uniform on `[0, 1]`), and the per-point
likelihood contribution of the `pm.Potential` term is the inlier
log-density when the label is `0` and the outlier log-density when the
label is `1`. -/
theorem C8_discrete_label_formulation (n : ℕ) (b0 b1 Yb Vb x y sy : ℝ) :
    (SignoiseModel.mdl_signoise_rvs n)[5]? =
      some ⟨"$q_i$", .bernoulli "$P_b$", some n⟩ ∧
    (SignoiseModel.mdl_signoise_rvs n)[4]? =
      some ⟨"$P_b$", .uniform 0 1, none⟩ ∧
    ((SignoiseModel.mdl_signoise_rvs n).filter
      (fun r => r.shape ≠ none)).length = 1 ∧
    SignoiseModel.potential b0 b1 Yb Vb [SignoiseModel.Point.mk x y sy] [0] =
      SignoiseModel.logL_in b0 b1 x sy y ∧
    SignoiseModel.potential b0 b1 Yb Vb [SignoiseModel.Point.mk x y sy] [1] =
      SignoiseModel.logL_out Yb Vb sy y := by
  refine ⟨rfl, rfl, rfl, ?_, ?_⟩ <;>
    simp [SignoiseModel.potential]

namespace RepoInventory

/-- The file reads performed by notebook code, as
(notebook, file): the single `data = pandas.read_csv('data.csv')` in the
"Read in the data" cell of `mcmc_fit_with_outliers_pymc.ipynb`.  The
Gaussian-process notebook reads no file (its data `x1`, `y1`, `y2` are
generated in-notebook). -/
def readCsvCalls : List (String × String) :=
  [("mcmc_fit_with_outliers_pymc.ipynb", "data.csv")]

/-- The distinct columns of the `data` table accessed by notebook code
(every attribute access `data.<col>` in
`mcmc_fit_with_outliers_pymc.ipynb`), in order of first appearance:
`data.x`, `data.y`, `data.sy`, `data.sx` in the centering cell and the
plotting cells, and `data.ID` in the outlier-probability plot cell
(`ax.set_yticklabels(['[{0}]'.format(i) for i in data.ID])`). -/
def dataColumnAccesses : List String :=
  ["x", "y", "sy", "sx", "ID"]

/-- Exception-handling constructs (`try`/`except` blocks), retry loops
and error-recovery branches appearing in the notebooks' code cells, as
(notebook, construct): there are none. -/
def tryExceptBlocks : List (String × String) := []

/-- Calls installing a warning filter, as (notebook, action): the cell
`import warnings; warnings.simplefilter('ignore')` of
`Gaussian_process_regression_pymc.ipynb`. -/
def warningFilterCalls : List (String × String) :=
  [("Gaussian_process_regression_pymc.ipynb", "ignore")]

/-- A `pm.sample(...)` call and the arguments the notebooks pass to it
(`none` = argument not passed, library default used). -/
structure SampleCall where
  model : String
  draws : ℕ
  tune : Option ℕ
  chains : Option ℕ
  cores : Option ℕ
  targetAccept : Option ℚ
deriving DecidableEq

/-- Every `pm.sample` call of the two notebooks, in source order:
four in `mcmc_fit_with_outliers_pymc.ipynb` and one in
`Gaussian_process_regression_pymc.ipynb`
(`pm.sample(2000, target_accept=0.99)` inside `model`). -/
def sampleCalls : List SampleCall :=
  [⟨"mdl_ols", 3000, some 2000, some 3, some 3, none⟩,
   ⟨"mdl_signoise", 3000, some 2000, some 3, some 3, none⟩,
   ⟨"mixture", 1000, some 1000, some 3, some 3, some (9 / 10)⟩,
   ⟨"mdl_ols_sx", 3000, some 2000, some 3, some 3, none⟩,
   ⟨"model", 2000, none, none, none, some (99 / 100)⟩]

/-- The modules imported by the code cells of the two notebooks. -/
def importedModules : List String :=
  ["numpy", "matplotlib", "pymc3", "theano.tensor", "pandas", "seaborn",
   "mpl_style", "scipy", "warnings"]

/-- Thread, process, or synchronization constructs (threads, process
pools, locks, queues, async tasks) implemented by notebook code: none. -/
def concurrencyConstructs : List String := []

/-- Where a covariance kernel's values are computed: by the external
sampling library, or by a class defined in the repository. -/
inductive KernelOrigin where
  | library
  | repository
deriving DecidableEq

/-- A Gaussian-process fit of `Gaussian_process_regression_pymc.ipynb`:
the model name, the covariance kernel passed to `pm.gp.Marginal`, and
where that kernel's values are computed. -/
structure GPFit where
  model : String
  kernel : String
  origin : KernelOrigin
deriving DecidableEq

/-- The Gaussian-process fits of the repository: `model` and
`model_noise` use `pm.gp.cov.ExpQuad` (scaled by `c**2`); `model_cube`
and `model_cube_err` use the repository-defined `CubicSpline` class
(scaled by `tau**2`). -/
def gpFits : List GPFit :=
  [⟨"model", "ExpQuad", .library⟩,
   ⟨"model_noise", "ExpQuad", .library⟩,
   ⟨"model_cube", "CubicSpline", .repository⟩,
   ⟨"model_cube_err", "CubicSpline", .repository⟩]

end RepoInventory

/-- **C5 — counterexample.** The claim that the notebook code accesses
no columns of the table other than `x`, `y`, `sx` and `sy` is false:
the outlier-probability plot cell accesses `data.ID`. -/
theorem C5_counterexample_ID_column_accessed :
    "ID" ∈ RepoInventory.dataColumnAccesses ∧
    "ID" ∉ (["x", "y", "sx", "sy"] : List String) ∧
    ¬ (∀ c ∈ RepoInventory.dataColumnAccesses,
      c ∈ (["x", "y", "sx", "sy"] : List String)) := by
  decide

/-- **C5 — amended.** The only persistent data artifact consumed by the
repository is the flat CSV table `data.csv`, read once (in the single
notebook that consumes it) via `pandas.read_csv`, and the notebook code
accesses no columns of the table other than `x`, `y`, `sx`, `sy` and
`ID` (`ID` is used once, to label the points of the
outlier-probability plot). -/
theorem C5_amended_csv_columns :
    RepoInventory.readCsvCalls =
      [("mcmc_fit_with_outliers_pymc.ipynb", "data.csv")] ∧
    ∀ c ∈ RepoInventory.dataColumnAccesses,
      c ∈ (["x", "y", "sx", "sy", "ID"] : List String) := by
  decide

/-- **C6 — counterexample.** The claim that failures are surfaced to the
student as library warnings rather than being handled or suppressed by
repository code is false: `Gaussian_process_regression_pymc.ipynb`
suppresses all warnings with `warnings.simplefilter('ignore')`. -/
theorem C6_counterexample_warnings_suppressed :
    ("Gaussian_process_regression_pymc.ipynb", "ignore") ∈
      RepoInventory.warningFilterCalls ∧
    ¬ (RepoInventory.tryExceptBlocks = [] ∧
      RepoInventory.warningFilterCalls = []) := by
  decide

/-- **C6 — amended.** The repository code contains no error taxonomy,
retry policy, or recovery logic (no `try`/`except` block, retry loop or
recovery branch exists in any notebook), and it installs exactly one
warning filter: `Gaussian_process_regression_pymc.ipynb` suppresses
library warnings globally with `warnings.simplefilter('ignore')`, so in
that notebook failures such as sampler divergence are silenced rather
than surfaced; only the outlier-fitting notebook surfaces them. -/
theorem C6_amended_no_error_handling :
    RepoInventory.tryExceptBlocks = [] ∧
    RepoInventory.warningFilterCalls =
      [("Gaussian_process_regression_pymc.ipynb", "ignore")] := by
  decide

/-- **C9.** All execution performed by the repository's own code is
sequential notebook-cell evaluation: the notebooks implement no thread,
process, or synchronization construct and import no concurrency module;
parallelism is configured only by the `chains`/`cores` arguments passed
to `pm.sample` (every call either omits them or passes the constants
`chains=3, cores=3`). -/
theorem C9_no_repo_concurrency :
    RepoInventory.concurrencyConstructs = [] ∧
    (∀ m ∈ RepoInventory.importedModules,
      m ∉ (["threading", "multiprocessing", "concurrent.futures",
        "asyncio"] : List String)) ∧
    (∀ c ∈ RepoInventory.sampleCalls,
      c.chains = none ∨ c.chains = some 3) ∧
    (∀ c ∈ RepoInventory.sampleCalls,
      c.cores = none ∨ c.cores = some 3) := by
  decide

/-- **C10 — counterexample.** The claim that no covariance-kernel value
used by any Gaussian-process fit is computed by repository code is
false: the `model_cube` fit uses the repository-defined `CubicSpline`
kernel, and that repository code computes concrete kernel values — e.g.
`full` on the single point `10` with `x_min=0, x_max=10` yields the
matrix `[[4/3]]`. -/
theorem C10_counterexample_repo_kernel :
    (⟨"model_cube", "CubicSpline", .repository⟩ : RepoInventory.GPFit) ∈
      RepoInventory.gpFits ∧
    ¬ (∀ f ∈ RepoInventory.gpFits,
      f.origin = RepoInventory.KernelOrigin.library) ∧
    CubicSplineKernel.full ⟨0, 10⟩ [10] (some [10]) = [[4 / 3]] := by
  refine ⟨by decide, by decide, ?_⟩
  norm_num [CubicSplineKernel.full, CubicSplineKernel.kentry,
    CubicSplineKernel.norm]

/-- **C10 — amended.** The Gaussian-process machinery (marginal
likelihood, MAP optimization, prediction, sampling) is implemented by
the external library, and the kernels of the `model` and `model_noise`
fits are library kernels (`ExpQuad`); however the covariance values of
the `model_cube` and `model_cube_err` fits are computed by the
repository-defined `CubicSpline` class. -/
theorem C10_amended_kernel_origins :
    (RepoInventory.gpFits.filter
      (fun f => f.origin = RepoInventory.KernelOrigin.repository)).map
        RepoInventory.GPFit.model = ["model_cube", "model_cube_err"] ∧
    (∀ f ∈ RepoInventory.gpFits,
      f.origin = RepoInventory.KernelOrigin.library →
        f.kernel = "ExpQuad") ∧
    (∀ f ∈ RepoInventory.gpFits,
      f.origin = RepoInventory.KernelOrigin.repository →
        f.kernel = "CubicSpline") := by
  decide
